import Mathlib

/-!
Verification of the Stellar distribution bot (`src/bot.ts` and its variants).

The development shallowly embeds the bot's core components:

* `assetChunks` — the batch planner (split the asset list into chunks of 100);
* `cooldownRejects` / `recordSuccess` — the per-requester cooldown guard;
* `checkAssetsTrustlineMissing` — the startup trustline preflight check;
* `safeText` — the secret-scrubbing of outward error text;
* `sendTransactions` — the bounded retry / error-classification state machine;
* `handleMessageText` — the per-request orchestration in the message handler.

JavaScript arrays are embedded as `List`, objects as structures, `undefined`
as `Option`, numbers as `Nat`/`Int`, and the in-place mutation of the
`operations` array is threaded explicitly (the `finalOps` field holds the
array contents when `sendTransactions` returns).  Network effects are
embedded as an environment `Nat → AttemptEnv` giving, for every attempt
index, the freshly loaded account snapshot, the build time, and the outcome
returned by the horizon endpoint for that submission.
-/

/-! ## Batch planner (`assetChunks`, bot.ts lines 220-225) -/

/-- Stellar's max operations per transaction, `const chunkSize = 100`. -/
def chunkSize : Nat := 100

/-- `for (let i = 0; i < ASSETS_TO_SEND.length; i += chunkSize) push(slice(i, i+chunkSize))`:
successively take `chunkSize`-element slices of the list. -/
def assetChunks {α : Type} (assets : List α) : List (List α) :=
  if h : assets.isEmpty then []
  else assets.take chunkSize :: assetChunks (assets.drop chunkSize)
termination_by assets.length
decreasing_by
  rw [List.length_drop]
  have hne : assets ≠ [] := by simpa [List.isEmpty_iff] using h
  have hpos : 0 < assets.length := List.length_pos.mpr hne
  have hc : chunkSize = 100 := rfl
  omega

theorem assetChunks_flatten {α : Type} (l : List α) : (assetChunks l).flatten = l := by
  induction l using assetChunks.induct with
  | case1 x h =>
      unfold assetChunks
      simp [h, List.isEmpty_iff.mp h]
  | case2 x h ih =>
      unfold assetChunks
      rw [dif_neg h, List.flatten_cons, ih]
      exact List.take_append_drop _ x

theorem assetChunks_length {α : Type} (l : List α) :
    (assetChunks l).length = (l.length + 99) / 100 := by
  induction l using assetChunks.induct with
  | case1 x h =>
      unfold assetChunks
      simp [h, List.isEmpty_iff.mp h]
  | case2 x h ih =>
      unfold assetChunks
      rw [dif_neg h, List.length_cons, ih, List.length_drop]
      have hne : x ≠ [] := by simpa [List.isEmpty_iff] using h
      have hpos : 0 < x.length := List.length_pos.mpr hne
      have hc : chunkSize = 100 := rfl
      rw [hc]
      omega

theorem assetChunks_sizes {α : Type} (l : List α) :
    (assetChunks l).all (fun c => decide (c.length ≤ chunkSize)) = true := by
  induction l using assetChunks.induct with
  | case1 x h =>
      unfold assetChunks
      simp [h]
  | case2 x h ih =>
      unfold assetChunks
      rw [dif_neg h, List.all_cons, ih]
      simp only [Bool.and_true, decide_eq_true_eq]
      rw [List.length_take]
      exact min_le_left _ _

/-- Claim C4: for every asset list of length N the batch planner produces
`ceil(N/100)` batches (0 for N = 0), each of size at most 100, whose in-order
concatenation reproduces the input exactly — no duplication, drop, or
reordering — as a pure total function. -/
theorem claim4_batch_planner {α : Type} (assets : List α) :
    (assetChunks assets).length = (assets.length + 99) / 100 ∧
    (assetChunks assets).flatten = assets ∧
    (assetChunks assets).all (fun c => decide (c.length ≤ chunkSize)) = true :=
  ⟨assetChunks_length assets, assetChunks_flatten assets, assetChunks_sizes assets⟩

/-! ## Asset data model and address validation -/

/-- `type AssetToSend = { code: string; issuer: string | null; amount: string }`. -/
structure AssetToSend where
  code : String
  issuer : Option String
  amount : String
deriving DecidableEq

/-- One entry of `account.balances`; native balances carry no
`asset_code`/`asset_issuer` fields, embedded as `none`. -/
structure Balance where
  asset_code : Option String
  asset_issuer : Option String
deriving DecidableEq

/-- A character allowed after the leading `G` by the regex `[A-Z2-7]`. -/
def isBase32UpperChar (c : Char) : Bool :=
  ('A' ≤ c && c ≤ 'Z') || ('2' ≤ c && c ≤ '7')

/-- `function isValidStellarAddress(address) { return /^G[A-Z2-7]{55}$/.test(address) }`. -/
def isValidStellarAddress (address : String) : Bool :=
  match address.data with
  | c :: rest => (c == 'G') && (rest.length == 55) && rest.all isBase32UpperChar
  | [] => false

theorem isValidStellarAddress_length {s : String}
    (h : isValidStellarAddress s = true) : s.data.length = 56 := by
  unfold isValidStellarAddress at h
  cases hs : s.data with
  | nil => rw [hs] at h; simp at h
  | cons c rest =>
      rw [hs] at h
      simp only [Bool.and_eq_true, beq_iff_eq] at h
      rw [List.length_cons, h.1.2]

/-! ## Trustline preflight check (`checkAssetsTrustline`, part_000 lines 77-110) -/

/-- `s.toUpperCase()`, character by character (the asset codes and the
`native` sentinel are ASCII). -/
def jsToUpper (s : String) : String := ⟨s.data.map Char.toUpper⟩

/-- `s.toLowerCase()`, character by character. -/
def jsToLower (s : String) : String := ⟨s.data.map Char.toLower⟩

/-- `const isNative = a.code.toUpperCase() === "XLM" && (a.issuer?.toLowerCase() === "native")`. -/
def isNativeAsset (a : AssetToSend) : Bool :=
  (jsToUpper a.code == "XLM") && (a.issuer.map jsToLower == some ("native"))

/-- The `Map` key `` `${a.code}:${a.issuer}` ``. -/
def assetKey (code issuer : String) : String := code ++ ":" ++ issuer

/-- For syntactically valid issuer addresses (fixed length 56) the string key
`code ++ ":" ++ issuer` determines the pair. -/
theorem assetKey_inj {c1 i1 c2 i2 : String}
    (h1 : isValidStellarAddress i1 = true) (h2 : isValidStellarAddress i2 = true)
    (hk : assetKey c1 i1 = assetKey c2 i2) : c1 = c2 ∧ i1 = i2 := by
  have hd : c1.data ++ ':' :: i1.data = c2.data ++ ':' :: i2.data := by
    have hcg := congrArg String.data hk
    simpa [assetKey, String.data_append, List.append_assoc] using hcg
  have hl1 : i1.data.length = 56 := isValidStellarAddress_length h1
  have hl2 : i2.data.length = 56 := isValidStellarAddress_length h2
  have hinj := List.append_inj' hd (by simp [hl1, hl2])
  obtain ⟨hc, hi⟩ := hinj
  have hi' : i1.data = i2.data := by
    simpa using hi
  exact ⟨String.ext hc, String.ext hi'⟩

/-- One step of building the `toCheck` map: skip native assets and assets
with no issuer, key by `` `${code}:${issuer}` ``, keep first occurrences. -/
def toCheckStep (acc : List (String × String)) (a : AssetToSend) : List (String × String) :=
  if isNativeAsset a then acc
  else
    match a.issuer with
    | none => acc
    | some issuer =>
        if acc.any (fun p => assetKey p.1 p.2 == assetKey a.code issuer) then acc
        else acc ++ [(a.code, issuer)]

/-- Build the de-duplicated list of `(code, issuer)` pairs to check, in
insertion order (the values of the `toCheck` map). -/
def toCheckPairs (allAssets : List AssetToSend) : List (String × String) :=
  allAssets.foldl toCheckStep []

/-- The loader's invariant on one configured asset: for a non-native asset
the issuer, when present, is a syntactically valid account address (the
catalog filter and `getMainAsset` validate exactly those); native assets
carry the sentinel issuer `native` and are not validated. -/
def issuerValid (a : AssetToSend) : Bool :=
  if isNativeAsset a then true
  else
    match a.issuer with
    | some i => isValidStellarAddress i
    | none => true

theorem toCheckPairs_foldl_mem :
    ∀ (l : List AssetToSend) (acc : List (String × String)),
    (∀ a ∈ l, isNativeAsset a = false → ∀ i, a.issuer = some i →
      isValidStellarAddress i = true) →
    (∀ p ∈ acc, isValidStellarAddress p.2 = true) →
    ∀ c i, ((c, i) ∈ l.foldl toCheckStep acc ↔
      (c, i) ∈ acc ∨ ∃ a ∈ l, isNativeAsset a = false ∧ a.code = c ∧ a.issuer = some i)
  | [], acc, _, _, c, i => by simp
  | a :: t, acc, hv, hacc, c, i => by
      rw [List.foldl_cons]
      have hvt : ∀ b ∈ t, isNativeAsset b = false → ∀ j, b.issuer = some j →
          isValidStellarAddress j = true :=
        fun b hb => hv b (List.mem_cons_of_mem a hb)
      have hav : isNativeAsset a = false → ∀ iss, a.issuer = some iss →
          isValidStellarAddress iss = true :=
        fun hna iss h => hv a (List.mem_cons_self a t) hna iss h
      have hsplit : (∃ b ∈ a :: t, isNativeAsset b = false ∧ b.code = c ∧ b.issuer = some i) ↔
          ((isNativeAsset a = false ∧ a.code = c ∧ a.issuer = some i) ∨
            ∃ b ∈ t, isNativeAsset b = false ∧ b.code = c ∧ b.issuer = some i) := by
        constructor
        · rintro ⟨b, hb, hP⟩
          rcases List.mem_cons.mp hb with rfl | hb'
          · exact Or.inl hP
          · exact Or.inr ⟨b, hb', hP⟩
        · rintro (hP | ⟨b, hb, hP⟩)
          · exact ⟨a, List.mem_cons_self a t, hP⟩
          · exact ⟨b, List.mem_cons_of_mem a hb, hP⟩
      cases hnat : isNativeAsset a with
      | true =>
          have hstep : toCheckStep acc a = acc := by simp [toCheckStep, hnat]
          rw [hstep, toCheckPairs_foldl_mem t acc hvt hacc c i, hsplit]
          have hPa : ¬(isNativeAsset a = false ∧ a.code = c ∧ a.issuer = some i) := by
            rintro ⟨hfalse, _, _⟩
            rw [hnat] at hfalse
            cases hfalse
          constructor
          · rintro (hmem | hex)
            · exact Or.inl hmem
            · exact Or.inr (Or.inr hex)
          · rintro (hmem | hP | hex)
            · exact Or.inl hmem
            · exact absurd hP hPa
            · exact Or.inr hex
      | false =>
          cases hiss : a.issuer with
          | none =>
              have hstep : toCheckStep acc a = acc := by simp [toCheckStep, hnat, hiss]
              rw [hstep, toCheckPairs_foldl_mem t acc hvt hacc c i, hsplit]
              have hPa : ¬(isNativeAsset a = false ∧ a.code = c ∧ a.issuer = some i) := by
                rintro ⟨_, _, hsome⟩
                rw [hiss] at hsome
                cases hsome
              constructor
              · rintro (hmem | hex)
                · exact Or.inl hmem
                · exact Or.inr (Or.inr hex)
              · rintro (hmem | hP | hex)
                · exact Or.inl hmem
                · exact absurd hP hPa
                · exact Or.inr hex
          | some iss =>
              cases hdup : acc.any (fun p => assetKey p.1 p.2 == assetKey a.code iss) with
              | true =>
                  have hstep : toCheckStep acc a = acc := by
                    simp [toCheckStep, hnat, hiss, hdup]
                  rw [hstep, toCheckPairs_foldl_mem t acc hvt hacc c i, hsplit]
                  have hPa : (isNativeAsset a = false ∧ a.code = c ∧ a.issuer = some i) →
                      (c, i) ∈ acc := by
                    rintro ⟨_, hcode, hsome⟩
                    rw [hiss] at hsome
                    injection hsome with hieq
                    rcases List.any_eq_true.mp hdup with ⟨p, hpmem, hpkey⟩
                    have hkey : assetKey p.1 p.2 = assetKey a.code iss := by simpa using hpkey
                    obtain ⟨he1, he2⟩ := assetKey_inj (hacc p hpmem) (hav hnat iss hiss) hkey
                    have hpeq : p = (c, i) := by
                      cases p
                      simp_all
                    rwa [hpeq] at hpmem
                  constructor
                  · rintro (hmem | hex)
                    · exact Or.inl hmem
                    · exact Or.inr (Or.inr hex)
                  · rintro (hmem | hP | hex)
                    · exact Or.inl hmem
                    · exact Or.inl (hPa hP)
                    · exact Or.inr hex
              | false =>
                  have hstep : toCheckStep acc a = acc ++ [(a.code, iss)] := by
                    simp [toCheckStep, hnat, hiss, hdup]
                  have hacc' : ∀ p ∈ acc ++ [(a.code, iss)], isValidStellarAddress p.2 = true := by
                    intro p hp
                    rcases List.mem_append.mp hp with hmem | hmem
                    · exact hacc p hmem
                    · have hpeq : p = (a.code, iss) := by simpa using hmem
                      rw [hpeq]
                      exact hav hnat iss hiss
                  rw [hstep, toCheckPairs_foldl_mem t _ hvt hacc' c i, hsplit]
                  have hmem_app : (c, i) ∈ acc ++ [(a.code, iss)] ↔
                      ((c, i) ∈ acc ∨ (c = a.code ∧ i = iss)) := by
                    rw [List.mem_append]
                    simp [Prod.ext_iff]
                  rw [hmem_app]
                  have hPa : (isNativeAsset a = false ∧ a.code = c ∧ a.issuer = some i) ↔
                      (c = a.code ∧ i = iss) := by
                    constructor
                    · rintro ⟨_, hcode, hsome⟩
                      rw [hiss] at hsome
                      injection hsome with hieq
                      exact ⟨hcode.symm, hieq.symm⟩
                    · rintro ⟨hc, hi⟩
                      exact ⟨hnat, hc.symm, by rw [hiss, hi]⟩
                  rw [hPa]
                  exact or_assoc

/-- `balances.some(b => b.asset_code === code && b.asset_issuer === issuer)`. -/
def balanceMatches (balances : List Balance) (code issuer : String) : Bool :=
  balances.any (fun b => (b.asset_code == some code) && (b.asset_issuer == some issuer))

/-- The `missing` list computed by `checkAssetsTrustline`: pairs to check that
no balance entry matches, in `toCheck` order.  The configured asset set is the
optional primary (`getMainAsset`) consed onto the catalog (`ALT_ASSETS`). -/
def checkAssetsTrustlineMissing (mainAsset : Option AssetToSend)
    (altAssets : List AssetToSend) (balances : List Balance) : List (String × String) :=
  let allAssets := match mainAsset with
    | some m => m :: altAssets
    | none => altAssets
  (toCheckPairs allAssets).filter (fun p => !(balanceMatches balances p.1 p.2))

/-- ` - ${m.code}:${m.issuer}` error lines enumerating every missing pair. -/
def trustlineErrorLines (missing : List (String × String)) : List String :=
  missing.map (fun m => " - " ++ m.1 ++ ":" ++ m.2)

/-- Outcome of the `bootstrap` IIFE: `process.exit(1)` when trustlines are
missing, otherwise `bot.start()` begins serving. -/
inductive BootstrapOutcome where
  | serve
  | exitWithFailure
deriving DecidableEq

/-- `await checkAssetsTrustline(); bot.start()` with `process.exit(1)` inside
the check when `missing.length > 0`. -/
def bootstrapRun (mainAsset : Option AssetToSend) (altAssets : List AssetToSend)
    (balances : List Balance) : BootstrapOutcome :=
  if (checkAssetsTrustlineMissing mainAsset altAssets balances).length > 0 then
    BootstrapOutcome.exitWithFailure
  else BootstrapOutcome.serve

/-- Claim C6: given the distributor's balance set and the full configured
asset set (optional primary asset plus the catalog, all issuers validated at
load time), the preflight check computes exactly the `(code, issuer)` pairs
that are required but absent from the balances, native assets exempt; the
process serves iff that set is empty, and every missing pair is enumerated in
the error lines. -/
theorem claim6_preflight (mainAsset : Option AssetToSend) (altAssets : List AssetToSend)
    (balances : List Balance)
    (hv : (match mainAsset with
      | some m => m :: altAssets
      | none => altAssets).all issuerValid = true) :
    (∀ c i, (c, i) ∈ checkAssetsTrustlineMissing mainAsset altAssets balances ↔
      ((∃ a ∈ (match mainAsset with
          | some m => m :: altAssets
          | none => altAssets), isNativeAsset a = false ∧ a.code = c ∧ a.issuer = some i) ∧
        balanceMatches balances c i = false)) ∧
    (bootstrapRun mainAsset altAssets balances = BootstrapOutcome.serve ↔
      checkAssetsTrustlineMissing mainAsset altAssets balances = []) ∧
    (∀ p ∈ checkAssetsTrustlineMissing mainAsset altAssets balances,
      (" - " ++ p.1 ++ ":" ++ p.2) ∈
        trustlineErrorLines (checkAssetsTrustlineMissing mainAsset altAssets balances)) := by
  have hv' : ∀ a ∈ (match mainAsset with
      | some m => m :: altAssets
      | none => altAssets), isNativeAsset a = false → ∀ i, a.issuer = some i →
      isValidStellarAddress i = true := by
    intro a ha hna i hi
    have hall := List.all_eq_true.mp hv a ha
    rw [issuerValid, if_neg (by simp [hna]), hi] at hall
    exact hall
  refine ⟨?_, ?_, ?_⟩
  · intro c i
    rw [checkAssetsTrustlineMissing.eq_def]
    rw [List.mem_filter]
    rw [toCheckPairs, toCheckPairs_foldl_mem _ [] hv' (by intro p hp; cases hp) c i]
    simp only [List.not_mem_nil, false_or, Bool.not_eq_true']
  · rw [bootstrapRun]
    cases hm : checkAssetsTrustlineMissing mainAsset altAssets balances with
    | nil => simp
    | cons p rest => simp
  · intro p hp
    exact List.mem_map_of_mem _ hp

/-- A concrete catalog asset with a syntactically valid issuer, used by the
C6 witness. -/
def catalogAssetW : AssetToSend :=
  { code := "USDC",
    issuer := some ("GAAAAAAAAAAAAAAAAAAAAAAAAAAAAAAAAAAAAAAAAAAAAAAAAAAAAAAA"),
    amount := "1" }

/-- A configured native asset in the code's representation (code `XLM`,
sentinel issuer `native`), used by the C6 witness. -/
def nativeAssetW : AssetToSend :=
  { code := "XLM", issuer := some ("native"), amount := "1" }

/-- Witness for C6: a catalog containing a native asset (exempt from the
check) and a non-native asset with a valid issuer, against an empty balance
list — the preflight characterization holds and startup serves iff nothing
is missing. -/
theorem claim6_witness :
    ([nativeAssetW, catalogAssetW].all issuerValid = true) ∧
    ((∀ c i, (c, i) ∈ checkAssetsTrustlineMissing none [nativeAssetW, catalogAssetW] [] ↔
      ((∃ a ∈ [nativeAssetW, catalogAssetW],
          isNativeAsset a = false ∧ a.code = c ∧ a.issuer = some i) ∧
        balanceMatches [] c i = false)) ∧
    (bootstrapRun none [nativeAssetW, catalogAssetW] [] = BootstrapOutcome.serve ↔
      checkAssetsTrustlineMissing none [nativeAssetW, catalogAssetW] [] = []) ∧
    (∀ p ∈ checkAssetsTrustlineMissing none [nativeAssetW, catalogAssetW] [],
      (" - " ++ p.1 ++ ":" ++ p.2) ∈
        trustlineErrorLines (checkAssetsTrustlineMissing none [nativeAssetW, catalogAssetW] []))) :=
  ⟨by decide, claim6_preflight none [nativeAssetW, catalogAssetW] [] (by decide)⟩

/-- One value of the cooldown map: `{ lastTime: number, lastAddress: string }`. -/
structure CooldownEntry where
  lastTime : Int
  lastAddress : String
deriving DecidableEq

/-- `const COOLDOWN_MS = 60 * 1000` (one minute, in milliseconds). -/
def COOLDOWN_MS : Int := 60 * 1000

/-- The `check_user_same_wallet_cooldown` block: the request is rejected iff
the user id is truthy, an entry for it exists, the entry's `lastAddress`
equals the submitted address and `now - lastTime < COOLDOWN_MS`.  The
`Record<number, …>` map is embedded as an association list read through
`List.lookup`. -/
def cooldownRejects (userCooldowns : List (Nat × CooldownEntry)) (userId : Nat)
    (address : String) (now : Int) : Bool :=
  if userId ≠ 0 then
    match List.lookup userId userCooldowns with
    | some cooldown =>
        (cooldown.lastAddress == address) && decide (now - cooldown.lastTime < COOLDOWN_MS)
    | none => false
  else false

/-- `userCooldowns[userId] = { lastTime: Date.now(), lastAddress: address }`:
record a successful distribution for this requester. -/
def recordSuccess (userCooldowns : List (Nat × CooldownEntry)) (userId : Nat)
    (address : String) (now : Int) : List (Nat × CooldownEntry) :=
  (userId, { lastTime := now, lastAddress := address }) :: userCooldowns

/-- Claim C5: the cooldown guard rejects a request (with no state change —
the check is a pure read of the map) iff a prior entry exists for the
requester with the same address whose last-success timestamp is less than
60 seconds (60000 ms) before `now`; a different address for the same
requester is always admitted. -/
theorem claim5_cooldown_guard (store : List (Nat × CooldownEntry)) (userId : Nat)
    (address : String) (now : Int) (h : userId ≠ 0) :
    (cooldownRejects store userId address now = true ↔
      ∃ c, List.lookup userId store = some c ∧
        c.lastAddress = address ∧ now - c.lastTime < 60 * 1000) ∧
    (∀ c, List.lookup userId store = some c → c.lastAddress ≠ address →
      cooldownRejects store userId address now = false) := by
  constructor
  · rw [cooldownRejects]
    simp only [h, if_true, ne_eq, not_false_iff, ite_true]
    cases hl : List.lookup userId store with
    | none => simp
    | some c =>
        simp only [Bool.and_eq_true, beq_iff_eq, decide_eq_true_eq]
        constructor
        · rintro ⟨h1, h2⟩
          exact ⟨c, rfl, h1, h2⟩
        · rintro ⟨c', hc', h1, h2⟩
          cases hc'
          exact ⟨h1, h2⟩
  · intro c hc hne
    rw [cooldownRejects]
    simp only [h, ne_eq, not_false_iff, ite_true, hc]
    simp [hne]

/-- Witness for C5 at concrete inputs: requester 1 has an entry for address
"A" recorded at time 0; at time 30000 ms the same address is rejected and a
different address "B" is admitted. -/
theorem claim5_witness :
    (1 : Nat) ≠ 0 ∧
    ((cooldownRejects [(1, { lastTime := 0, lastAddress := "A" })] 1 "A" 30000 = true ↔
      ∃ c, List.lookup 1 [(1, ({ lastTime := 0, lastAddress := "A" } : CooldownEntry))] = some c ∧
        c.lastAddress = "A" ∧ (30000 : Int) - c.lastTime < 60 * 1000) ∧
    (∀ c, List.lookup 1 [(1, ({ lastTime := 0, lastAddress := "A" } : CooldownEntry))] = some c →
      c.lastAddress ≠ "A" →
      cooldownRejects [(1, { lastTime := 0, lastAddress := "A" })] 1 "A" 30000 = false)) :=
  ⟨by decide, claim5_cooldown_guard [(1, { lastTime := 0, lastAddress := "A" })] 1 "A" 30000 (by decide)⟩

/-! ## Secret scrubbing (`safeText`, bot.ts lines 88-95)

Strings are JavaScript character sequences; the split/join pair is embedded
on `List Char`. -/

/-- `text.split(secret)`: cut the character sequence at every leftmost,
non-overlapping occurrence of `sep`; the pieces contain no occurrence. -/
def jsSplit (sep : List Char) : List Char → List (List Char)
  | [] => [[]]
  | c :: rest =>
      if h : sep ≠ [] ∧ sep.isPrefixOf (c :: rest) then
        [] :: jsSplit sep ((c :: rest).drop sep.length)
      else
        match jsSplit sep rest with
        | [] => [[c]]
        | p :: ps => (c :: p) :: ps
termination_by s => s.length
decreasing_by
  · have hsep : 1 ≤ sep.length := List.length_pos.mpr h.1
    rw [List.length_drop]
    simp only [List.length_cons]
    omega
  · simp only [List.length_cons]
    omega

/-- `pieces.join('[SECRET]')`: interleave the separator between pieces. -/
def joinWith (sepStr : List Char) : List (List Char) → List Char
  | [] => []
  | [p] => p
  | p :: q :: ps => p ++ sepStr ++ joinWith sepStr (q :: ps)

/-- `safeText`: when the secret is set (non-empty), replace every occurrence
of the exact secret string in the text with `[SECRET]` via
`text.split(secret).join('[SECRET]')`; the argument is the textual rendering
`e.message || JSON.stringify(e)` of the raw error. -/
def safeText (secret : String) (text : String) : String :=
  if secret = "" then text
  else ⟨joinWith ("[SECRET]".data) (jsSplit secret.data text.data)⟩

/-! ## Ledger submission outcomes and the retry state machine
(`sendTransactions`, bot.ts lines 113-189) -/

/-- `e.response.data.extras.result_codes`: the transaction-level code and the
optional per-operation code array. -/
structure ResultCodes where
  transaction : String
  operations : Option (List String)
deriving DecidableEq

/-- A raw submission failure: optional HTTP status (`e.status`), optional
structured result codes, and the error's textual rendering
(`e.message || JSON.stringify(e)`). -/
structure HorizonError where
  status : Option Nat
  resultCodes : Option ResultCodes
  message : String
deriving DecidableEq

/-- What `server.submitTransaction` does for one attempt: return a hash or
throw an error. -/
inductive SubmitOutcome where
  | ok (hash : String)
  | err (e : HorizonError)
deriving DecidableEq

/-- The environment of one attempt: the freshly loaded account snapshot's
sequence number (`server.loadAccount`), the build time of the transaction,
and the submission outcome the network returns. -/
structure AttemptEnv where
  seq : Nat
  buildTime : Int
  outcome : SubmitOutcome
deriving DecidableEq

/-- The transaction built in one attempt: source sequence number from the
snapshot, `setTimeout(180)` validity bound from the build time, and the
operation list it carries. -/
structure BuiltTx (Op : Type) where
  sourceSeq : Nat
  timeboundMax : Int
  ops : List Op
deriving DecidableEq

/-- Observable result of `sendTransactions`: the returned hash list, the
number of submission attempts actually made, the transactions built (one per
attempt, in order), the contents of the caller's `operations` array when the
call returns (it is mutated in place on the pruning path), and the outward
replies in order. -/
structure SendResult (Op : Type) where
  hashes : List String
  attempts : Nat
  builds : List (BuiltTx Op)
  finalOps : List Op
  replies : List String
deriving DecidableEq

/-- `` `Transaction failed. Target address: ${target_address}. Reason: ${...}` ``. -/
def mkFailReason (target_address reason : String) : String :=
  "Transaction failed. Target address: " ++ target_address ++ ". Reason: " ++ reason

/-- `ops.map((v, i) => v === "op_no_trust" ? i : -1).filter(i => i !== -1)`:
the indices whose per-operation code is `op_no_trust`, in ascending order
(non-matching positions are mapped to the sentinel `-1` and dropped by the
filter, so exactly the matching indices remain). -/
def noTrustIndexes (codes : List String) : List Nat :=
  (codes.enum.filter (fun p => p.2 == "op_no_trust")).map (fun p => p.1)

/-- `.sort((a, b) => b - a)`: numeric sort in descending order. -/
def sortDesc (l : List Nat) : List Nat :=
  List.insertionSort (fun a b => b ≤ a) l

/-- `for (const index of indexes.sort((a,b) => b-a)) operations.splice(index, 1)`:
remove the rejected indices from the operations array, highest index first. -/
def pruneOps {Op : Type} (operations : List Op) (codes : List String) : List Op :=
  (sortDesc (noTrustIndexes codes)).foldl (fun acc i => acc.eraseIdx i) operations

/-- Modelled from the spec: "remove exactly those indices from the batch,
preserving relative order of survivors" — walk the batch and the code list in
lockstep and keep exactly the operations whose code is not `op_no_trust`. -/
def specSurvivors {Op : Type} : List Op → List String → List Op
  | [], _ => []
  | o :: ops, [] => o :: ops
  | o :: ops, c :: cs =>
      if c = "op_no_trust" then specSurvivors ops cs else o :: specSurvivors ops cs

/-- The retry state machine of `sendTransactions`, with the recursion depth
made explicit: `gas` is `maxRetries - retryCount`, so `gas = 0` exactly when
`retryCount >= maxRetries` (the max-retries guard).  Every recursive call of
the source increments `retryCount` by one and so decrements `gas`. -/
def sendTransactionsGas {Op : Type} (env : Nat → AttemptEnv) (target_address secret : String) :
    Nat → List Op → Nat → Nat → SendResult Op
  | gas, operations, retryCount, maxRetries =>
    if operations.length = 0 then
      { hashes := [], attempts := 0, builds := [], finalOps := operations, replies := [] }
    else
      match gas with
      | 0 =>
          { hashes := [], attempts := 0, builds := [], finalOps := operations,
            replies := ["❌ Max retries reached. Aborting transaction."] }
      | Nat.succ gas' =>
          let a := env retryCount
          let tx : BuiltTx Op :=
            { sourceSeq := a.seq, timeboundMax := a.buildTime + 180, ops := operations }
          match a.outcome with
          | SubmitOutcome.ok hash =>
              { hashes := [hash], attempts := 1, builds := [tx], finalOps := operations,
                replies := [] }
          | SubmitOutcome.err e =>
              if e.status = some 504 then
                let r := sendTransactionsGas env target_address secret gas' operations
                  (retryCount + 1) maxRetries
                { hashes := r.hashes, attempts := r.attempts + 1, builds := tx :: r.builds,
                  finalOps := r.finalOps,
                  replies := "504 Gateway Timeout. Retrying..." :: r.replies }
              else
                match e.resultCodes with
                | some rc =>
                    if rc.transaction = "tx_bad_seq" then
                      let r := sendTransactionsGas env target_address secret gas' operations
                        (retryCount + 1) maxRetries
                      { hashes := r.hashes, attempts := r.attempts + 1,
                        builds := tx :: r.builds, finalOps := r.finalOps,
                        replies := "Bad sequence number. Retrying..." :: r.replies }
                    else if rc.transaction = "tx_too_late" then
                      let r := sendTransactionsGas env target_address secret gas' operations
                        (retryCount + 1) maxRetries
                      { hashes := r.hashes, attempts := r.attempts + 1,
                        builds := tx :: r.builds, finalOps := r.finalOps,
                        replies := "Transaction timeout. Retrying..." :: r.replies }
                    else if rc.transaction = "tx_insufficient_fee" then
                      let r := sendTransactionsGas env target_address secret gas' operations
                        (retryCount + 1) maxRetries
                      { hashes := r.hashes, attempts := r.attempts + 1,
                        builds := tx :: r.builds, finalOps := r.finalOps,
                        replies := "Gas fee is too high now. Retrying after 5 seconds..." :: r.replies }
                    else if rc.transaction = "tx_failed" ∧ (rc.operations.getD []).length > 0 then
                      if "op_no_trust" ∈ rc.operations.getD [] then
                        let pruned := pruneOps operations (rc.operations.getD [])
                        if pruned.length > 0 then
                          let r := sendTransactionsGas env target_address secret gas' pruned
                            (retryCount + 1) maxRetries
                          { hashes := r.hashes, attempts := r.attempts + 1,
                            builds := tx :: r.builds, finalOps := r.finalOps,
                            replies := "Your wallet has not set a trustline. Retrying remaining operations..." :: r.replies }
                        else
                          { hashes := [], attempts := 1, builds := [tx], finalOps := pruned,
                            replies := ["Transaction failed: Your wallet did not set trustline with asset."] }
                      else if "op_underfunded" ∈ rc.operations.getD [] then
                        { hashes := [], attempts := 1, builds := [tx], finalOps := operations,
                          replies := ["Transaction failed: Asset amount is insufficient in distribution account."] }
                      else
                        { hashes := [], attempts := 1, builds := [tx], finalOps := operations,
                          replies := [mkFailReason target_address (safeText secret e.message)] }
                    else
                      { hashes := [], attempts := 1, builds := [tx], finalOps := operations,
                        replies := [mkFailReason target_address (safeText secret e.message)] }
                | none =>
                    { hashes := [], attempts := 1, builds := [tx], finalOps := operations,
                      replies := [mkFailReason target_address (safeText secret e.message)] }

/-- `sendTransactions(operations, ctx, target_address, retryCount = 0, maxRetries = 5)`:
the callers always start at `retryCount = 0`, `maxRetries = 5`. -/
def sendTransactions {Op : Type} (env : Nat → AttemptEnv) (target_address secret : String)
    (operations : List Op) (retryCount maxRetries : Nat) : SendResult Op :=
  sendTransactionsGas env target_address secret (maxRetries - retryCount) operations
    retryCount maxRetries

/-! ## The descending splice loop removes exactly the rejected indices -/

theorem enumFrom_shift {α : Type} : ∀ (l : List α) (n : Nat),
    List.enumFrom n l = l.enum.map (fun p => (p.1 + n, p.2))
  | [], _ => rfl
  | a :: t, n => by
      rw [List.enumFrom_cons, enumFrom_shift t (n + 1), List.enum_cons, List.map_cons,
        enumFrom_shift t 1, List.map_map]
      refine congrArg₂ _ (by simp) ?_
      apply List.map_congr_left
      intro p _
      simp only [Function.comp]
      refine congrArg₂ _ (by omega) rfl

theorem noTrustIndexes_cons (c : String) (cs : List String) :
    noTrustIndexes (c :: cs) =
      (if c = "op_no_trust" then [0] else []) ++ (noTrustIndexes cs).map (· + 1) := by
  unfold noTrustIndexes
  rw [List.enum_cons, enumFrom_shift cs 1, List.filter_cons]
  by_cases hc : c = "op_no_trust"
  all_goals
    have hfil : List.filter ((fun p => p.2 == "op_no_trust") ∘ fun p => (p.1 + 1, p.2)) cs.enum
        = List.filter (fun p => p.2 == "op_no_trust") cs.enum := by
      apply List.filter_congr
      intro p _
      rfl
  · subst hc
    rw [List.filter_map, List.map_map]
    simp only [beq_self_eq_true, if_pos, List.map_cons, hfil]
    refine congrArg₂ _ rfl ?_
    have happ : ([] : List Nat).append
        (List.map ((fun x => x + 1) ∘ fun p => p.1)
          (List.filter (fun p => p.2 == "op_no_trust") cs.enum)) =
        List.map ((fun x => x + 1) ∘ fun p => p.1)
          (List.filter (fun p => p.2 == "op_no_trust") cs.enum) := rfl
    rw [happ, List.map_map]
    apply List.map_congr_left
    intro p _
    rfl
  · have hbeq : (c == "op_no_trust") = false := by simpa using hc
    rw [List.filter_map, List.map_map]
    simp only [hbeq, if_neg, Bool.false_eq_true, not_false_iff, hc, if_false, hfil,
      List.nil_append]
    rw [List.map_map]
    apply List.map_congr_left
    intro p _
    rfl

theorem foldr_erase_nil {α : Type} : ∀ (idxs : List Nat),
    idxs.foldr (fun i acc => acc.eraseIdx i) ([] : List α) = []
  | [] => rfl
  | i :: idxs => by
      rw [List.foldr_cons, foldr_erase_nil idxs]
      rfl

theorem foldr_erase_shift {α : Type} : ∀ (idxs : List Nat) (o : α) (l : List α),
    (idxs.map (· + 1)).foldr (fun i acc => acc.eraseIdx i) (o :: l)
      = o :: idxs.foldr (fun i acc => acc.eraseIdx i) l
  | [], _, _ => rfl
  | i :: idxs, o, l => by
      rw [List.map_cons, List.foldr_cons, foldr_erase_shift idxs o l, List.foldr_cons,
        List.eraseIdx_cons_succ]

theorem foldr_noTrust_spec {Op : Type} : ∀ (codes : List String) (ops : List Op),
    (noTrustIndexes codes).foldr (fun i acc => acc.eraseIdx i) ops = specSurvivors ops codes
  | [], ops => by
      cases ops <;> rfl
  | c :: cs, ops => by
      cases ops with
      | nil => exact foldr_erase_nil _
      | cons o t =>
          rw [noTrustIndexes_cons, List.foldr_append, foldr_erase_shift (noTrustIndexes cs) o t,
            foldr_noTrust_spec cs t]
          by_cases hc : c = "op_no_trust"
          · rw [if_pos hc, List.foldr_cons, List.foldr_nil, List.eraseIdx_cons_zero,
              specSurvivors, if_pos hc]
          · rw [if_neg hc, List.foldr_nil, specSurvivors, if_neg hc]

theorem noTrustIndexes_sorted (codes : List String) :
    (noTrustIndexes codes).Sorted (· ≤ ·) := by
  induction codes with
  | nil => exact List.sorted_nil
  | cons c cs ih =>
      rw [noTrustIndexes_cons]
      have hmap : ((noTrustIndexes cs).map (· + 1)).Sorted (· ≤ ·) := by
        rw [List.Sorted, List.pairwise_map]
        exact ih.imp (fun hab => by omega)
      by_cases hc : c = "op_no_trust"
      · rw [if_pos hc]
        rw [List.singleton_append, List.sorted_cons]
        exact ⟨fun b _ => Nat.zero_le b, hmap⟩
      · rw [if_neg hc, List.nil_append]
        exact hmap

theorem sortDesc_of_sorted_asc {l : List Nat} (h : l.Sorted (· ≤ ·)) :
    sortDesc l = l.reverse := by
  haveI hanti : IsAntisymm Nat (fun a b => b ≤ a) := ⟨fun a b h1 h2 => Nat.le_antisymm h2 h1⟩
  haveI htot : IsTotal Nat (fun a b => b ≤ a) := ⟨fun a b => Nat.le_total b a⟩
  haveI htrans : IsTrans Nat (fun a b => b ≤ a) := ⟨fun _ _ _ h1 h2 => Nat.le_trans h2 h1⟩
  apply List.eq_of_perm_of_sorted (r := fun a b => b ≤ a)
  · exact (List.perm_insertionSort _ l).trans l.reverse_perm.symm
  · exact List.sorted_insertionSort _ l
  · rw [List.Sorted, List.pairwise_reverse]
    exact h

/-- The source's descending-splice loop computes exactly the spec's
order-preserving removal of the indices carrying `op_no_trust`. -/
theorem pruneOps_eq_specSurvivors {Op : Type} (ops : List Op) (codes : List String) :
    pruneOps ops codes = specSurvivors ops codes := by
  rw [pruneOps, sortDesc_of_sorted_asc (noTrustIndexes_sorted codes), List.foldl_reverse]
  exact foldr_noTrust_spec codes ops

/-- Evaluation of one pruning-and-retry step: a `tx_failed` / `op_no_trust`
rejection with a non-empty pruned batch recurses on the pruned batch with the
attempt counter advanced by one. -/
theorem sendTransactions_prune_step {Op : Type} (env : Nat → AttemptEnv)
    (target_address secret : String) (operations : List Op) (retryCount maxRetries : Nat)
    (e : HorizonError) (rc : ResultCodes) (codes : List String)
    (hops : operations ≠ [])
    (hrc : retryCount < maxRetries)
    (henv : (env retryCount).outcome = SubmitOutcome.err e)
    (h504 : e.status ≠ some 504)
    (hrcodes : e.resultCodes = some rc)
    (ht : rc.transaction = "tx_failed")
    (hcodes : rc.operations = some codes)
    (hne : codes ≠ [])
    (hmem : "op_no_trust" ∈ codes)
    (hpr : pruneOps operations codes ≠ []) :
    sendTransactions env target_address secret operations retryCount maxRetries =
      { hashes := (sendTransactions env target_address secret (pruneOps operations codes)
          (retryCount + 1) maxRetries).hashes,
        attempts := (sendTransactions env target_address secret (pruneOps operations codes)
          (retryCount + 1) maxRetries).attempts + 1,
        builds := { sourceSeq := (env retryCount).seq,
                    timeboundMax := (env retryCount).buildTime + 180,
                    ops := operations } ::
          (sendTransactions env target_address secret (pruneOps operations codes)
            (retryCount + 1) maxRetries).builds,
        finalOps := (sendTransactions env target_address secret (pruneOps operations codes)
          (retryCount + 1) maxRetries).finalOps,
        replies := "Your wallet has not set a trustline. Retrying remaining operations..." ::
          (sendTransactions env target_address secret (pruneOps operations codes)
            (retryCount + 1) maxRetries).replies } := by
  have hgas : maxRetries - retryCount = Nat.succ (maxRetries - (retryCount + 1)) := by omega
  have hlen : ¬(operations.length = 0) := by
    simpa [List.length_eq_zero] using hops
  have hlen2 : 0 < codes.length := List.length_pos.mpr hne
  have hprlen : 0 < (pruneOps operations codes).length := List.length_pos.mpr hpr
  rw [sendTransactions, hgas, sendTransactionsGas]
  simp only [if_neg hlen, henv, h504, hrcodes, ht, hcodes]
  simp [hlen2, hmem, hprlen, sendTransactions]

/-- Evaluation of the all-rejected case: pruning leaves an empty batch, the
submitter stops permanently with no hash. -/
theorem sendTransactions_prune_empty {Op : Type} (env : Nat → AttemptEnv)
    (target_address secret : String) (operations : List Op) (retryCount maxRetries : Nat)
    (e : HorizonError) (rc : ResultCodes) (codes : List String)
    (hops : operations ≠ [])
    (hrc : retryCount < maxRetries)
    (henv : (env retryCount).outcome = SubmitOutcome.err e)
    (h504 : e.status ≠ some 504)
    (hrcodes : e.resultCodes = some rc)
    (ht : rc.transaction = "tx_failed")
    (hcodes : rc.operations = some codes)
    (hne : codes ≠ [])
    (hmem : "op_no_trust" ∈ codes)
    (hpr : pruneOps operations codes = []) :
    sendTransactions env target_address secret operations retryCount maxRetries =
      { hashes := [], attempts := 1,
        builds := [{ sourceSeq := (env retryCount).seq,
                     timeboundMax := (env retryCount).buildTime + 180,
                     ops := operations }],
        finalOps := [],
        replies := ["Transaction failed: Your wallet did not set trustline with asset."] } := by
  have hgas : maxRetries - retryCount = Nat.succ (maxRetries - (retryCount + 1)) := by omega
  have hlen : ¬(operations.length = 0) := by
    simpa [List.length_eq_zero] using hops
  have hlen2 : 0 < codes.length := List.length_pos.mpr hne
  have hprlen : (pruneOps operations codes).length = 0 := by rw [hpr]; rfl
  rw [sendTransactions, hgas, sendTransactionsGas]
  simp only [if_neg hlen, henv, h504, hrcodes, ht, hcodes]
  simp [hlen2, hmem, hprlen, hpr]

/-- Evaluation of a successful attempt: the hash is returned and the caller's
array is left as passed. -/
theorem sendTransactions_ok_step {Op : Type} (env : Nat → AttemptEnv)
    (target_address secret : String) (operations : List Op) (retryCount maxRetries : Nat)
    (hash : String)
    (hops : operations ≠ [])
    (hrc : retryCount < maxRetries)
    (henv : (env retryCount).outcome = SubmitOutcome.ok hash) :
    sendTransactions env target_address secret operations retryCount maxRetries =
      { hashes := [hash], attempts := 1,
        builds := [{ sourceSeq := (env retryCount).seq,
                     timeboundMax := (env retryCount).buildTime + 180,
                     ops := operations }],
        finalOps := operations,
        replies := [] } := by
  have hgas : maxRetries - retryCount = Nat.succ (maxRetries - (retryCount + 1)) := by omega
  have hlen : ¬(operations.length = 0) := by
    simpa [List.length_eq_zero] using hops
  rw [sendTransactions, hgas, sendTransactionsGas]
  simp [hlen, henv]

/-! ## Claims about the submitter -/

/-- Claim C3: a failure classified as resource exhaustion (`tx_failed` with a
per-operation code list containing `op_underfunded` and no co-occurring
`op_no_trust`) terminates the batch immediately and permanently: exactly this
one submission attempt is made (the attempt counter does not advance, no
further network call happens), no hash is returned, and the underfunded
message is surfaced. -/
theorem claim3_underfunded_terminal {Op : Type} (env : Nat → AttemptEnv)
    (target_address secret : String) (operations : List Op) (retryCount maxRetries : Nat)
    (e : HorizonError) (rc : ResultCodes) (codes : List String)
    (hops : operations ≠ [])
    (hrc : retryCount < maxRetries)
    (henv : (env retryCount).outcome = SubmitOutcome.err e)
    (h504 : e.status ≠ some 504)
    (hrcodes : e.resultCodes = some rc)
    (ht : rc.transaction = "tx_failed")
    (hcodes : rc.operations = some codes)
    (hne : codes ≠ [])
    (hnotrust : "op_no_trust" ∉ codes)
    (hmem : "op_underfunded" ∈ codes) :
    sendTransactions env target_address secret operations retryCount maxRetries =
      { hashes := [], attempts := 1,
        builds := [{ sourceSeq := (env retryCount).seq,
                     timeboundMax := (env retryCount).buildTime + 180, ops := operations }],
        finalOps := operations,
        replies := ["Transaction failed: Asset amount is insufficient in distribution account."] } := by
  have hgas : maxRetries - retryCount = Nat.succ (maxRetries - (retryCount + 1)) := by omega
  have hlen : ¬(operations.length = 0) := by
    simpa [List.length_eq_zero] using hops
  have hlen2 : 0 < codes.length := List.length_pos.mpr hne
  rw [sendTransactions, hgas, sendTransactionsGas]
  simp only [if_neg hlen, henv, h504, hrcodes, ht, hcodes, hlen2, hmem, hnotrust]
  simp [hlen2, hmem, hnotrust]

/-- A target address and a secret used by witnesses. -/
def addrW : String := "GADDR"

def secretW : String := "SQQQ"

/-- The concrete underfunded rejection used by the C3 witness. -/
def underfundedErrW : HorizonError :=
  { status := none,
    resultCodes := some { transaction := "tx_failed", operations := some ["op_underfunded"] },
    message := "op_underfunded" }

def envUnderfundedW : Nat → AttemptEnv :=
  fun _ => { seq := 7, buildTime := 0, outcome := SubmitOutcome.err underfundedErrW }

/-- Witness for C3: an underfunded rejection on attempt 1 of 5 stops the
batch with exactly one attempt, no hash, and the underfunded message. -/
theorem claim3_witness :
    (([0] : List Nat) ≠ [] ∧ 0 < 5 ∧
      (envUnderfundedW 0).outcome = SubmitOutcome.err underfundedErrW ∧
      underfundedErrW.status ≠ some 504 ∧
      underfundedErrW.resultCodes =
        some { transaction := "tx_failed", operations := some ["op_underfunded"] } ∧
      (["op_underfunded"] : List String) ≠ [] ∧
      "op_no_trust" ∉ (["op_underfunded"] : List String) ∧
      "op_underfunded" ∈ (["op_underfunded"] : List String)) ∧
    sendTransactions envUnderfundedW addrW secretW ([0] : List Nat) 0 5 =
      { hashes := [], attempts := 1,
        builds := [{ sourceSeq := 7, timeboundMax := 180, ops := [0] }],
        finalOps := [0],
        replies := ["Transaction failed: Asset amount is insufficient in distribution account."] } :=
  ⟨by decide,
   claim3_underfunded_terminal envUnderfundedW addrW secretW [0] 0 5 underfundedErrW
     { transaction := "tx_failed", operations := some ["op_underfunded"] } ["op_underfunded"]
     (by decide) (by decide) rfl (by decide) rfl rfl rfl (by decide) (by decide) (by decide)⟩

/-- Claim C1: a `tx_failed` rejection whose non-empty per-operation code list
contains `op_no_trust` makes the submitter remove exactly the operations at
the indices carrying that code (order of survivors preserved — the splice
loop equals the spec's order-preserving removal) and retry with the reduced
batch under the same attempt budget; if the reduced batch is empty it
terminates permanently with no hash. -/
theorem claim1_no_trust_pruning {Op : Type} (env : Nat → AttemptEnv)
    (target_address secret : String) (operations : List Op) (retryCount maxRetries : Nat)
    (e : HorizonError) (rc : ResultCodes) (codes : List String)
    (hops : operations ≠ [])
    (hrc : retryCount < maxRetries)
    (henv : (env retryCount).outcome = SubmitOutcome.err e)
    (h504 : e.status ≠ some 504)
    (hrcodes : e.resultCodes = some rc)
    (ht : rc.transaction = "tx_failed")
    (hcodes : rc.operations = some codes)
    (hne : codes ≠ [])
    (hmem : "op_no_trust" ∈ codes) :
    pruneOps operations codes = specSurvivors operations codes ∧
    (pruneOps operations codes ≠ [] →
      sendTransactions env target_address secret operations retryCount maxRetries =
        { hashes := (sendTransactions env target_address secret (pruneOps operations codes)
            (retryCount + 1) maxRetries).hashes,
          attempts := (sendTransactions env target_address secret (pruneOps operations codes)
            (retryCount + 1) maxRetries).attempts + 1,
          builds := { sourceSeq := (env retryCount).seq,
                      timeboundMax := (env retryCount).buildTime + 180,
                      ops := operations } ::
            (sendTransactions env target_address secret (pruneOps operations codes)
              (retryCount + 1) maxRetries).builds,
          finalOps := (sendTransactions env target_address secret (pruneOps operations codes)
            (retryCount + 1) maxRetries).finalOps,
          replies := "Your wallet has not set a trustline. Retrying remaining operations..." ::
            (sendTransactions env target_address secret (pruneOps operations codes)
              (retryCount + 1) maxRetries).replies }) ∧
    (pruneOps operations codes = [] →
      sendTransactions env target_address secret operations retryCount maxRetries =
        { hashes := [], attempts := 1,
          builds := [{ sourceSeq := (env retryCount).seq,
                       timeboundMax := (env retryCount).buildTime + 180,
                       ops := operations }],
          finalOps := [],
          replies := ["Transaction failed: Your wallet did not set trustline with asset."] }) := by
  refine ⟨pruneOps_eq_specSurvivors operations codes, ?_, ?_⟩
  · intro hpr
    exact sendTransactions_prune_step env target_address secret operations retryCount
      maxRetries e rc codes hops hrc henv h504 hrcodes ht hcodes hne hmem hpr
  · intro hpr
    exact sendTransactions_prune_empty env target_address secret operations retryCount
      maxRetries e rc codes hops hrc henv h504 hrcodes ht hcodes hne hmem hpr

/-- The per-operation code list naming index 1 as unauthorized, used by the
C1/C10 witnesses. -/
def codesW : List String := ["op_success", "op_no_trust", "op_success"]

def noTrustErrW : HorizonError :=
  { status := none,
    resultCodes := some { transaction := "tx_failed", operations := some codesW },
    message := "op_no_trust" }

def envNoTrustW : Nat → AttemptEnv :=
  fun n => { seq := n, buildTime := 0, outcome := SubmitOutcome.err noTrustErrW }

/-- Witness for C1: batch `[op0, op1, op2]` whose rejection names index 1 as
unauthorized prunes to `[op0, op2]` — order preserved — and the submitter
retries with the reduced batch. -/
theorem claim1_witness :
    (([10, 20, 30] : List Nat) ≠ [] ∧ (0 : Nat) < 5 ∧
      (envNoTrustW 0).outcome = SubmitOutcome.err noTrustErrW ∧
      noTrustErrW.status ≠ some 504 ∧
      noTrustErrW.resultCodes = some { transaction := "tx_failed", operations := some codesW } ∧
      codesW ≠ [] ∧ "op_no_trust" ∈ codesW) ∧
    pruneOps ([10, 20, 30] : List Nat) codesW = [10, 30] ∧
    (pruneOps ([10, 20, 30] : List Nat) codesW = specSurvivors [10, 20, 30] codesW ∧
     (pruneOps ([10, 20, 30] : List Nat) codesW ≠ [] →
      sendTransactions envNoTrustW addrW secretW [10, 20, 30] 0 5 =
        { hashes := (sendTransactions envNoTrustW addrW secretW
            (pruneOps ([10, 20, 30] : List Nat) codesW) (0 + 1) 5).hashes,
          attempts := (sendTransactions envNoTrustW addrW secretW
            (pruneOps ([10, 20, 30] : List Nat) codesW) (0 + 1) 5).attempts + 1,
          builds := { sourceSeq := (envNoTrustW 0).seq,
                      timeboundMax := (envNoTrustW 0).buildTime + 180,
                      ops := [10, 20, 30] } ::
            (sendTransactions envNoTrustW addrW secretW
              (pruneOps ([10, 20, 30] : List Nat) codesW) (0 + 1) 5).builds,
          finalOps := (sendTransactions envNoTrustW addrW secretW
            (pruneOps ([10, 20, 30] : List Nat) codesW) (0 + 1) 5).finalOps,
          replies := "Your wallet has not set a trustline. Retrying remaining operations..." ::
            (sendTransactions envNoTrustW addrW secretW
              (pruneOps ([10, 20, 30] : List Nat) codesW) (0 + 1) 5).replies }) ∧
     (pruneOps ([10, 20, 30] : List Nat) codesW = [] →
      sendTransactions envNoTrustW addrW secretW [10, 20, 30] 0 5 =
        { hashes := [], attempts := 1,
          builds := [{ sourceSeq := (envNoTrustW 0).seq,
                       timeboundMax := (envNoTrustW 0).buildTime + 180,
                       ops := [10, 20, 30] }],
          finalOps := [],
          replies := ["Transaction failed: Your wallet did not set trustline with asset."] })) :=
  ⟨by decide, by decide,
   claim1_no_trust_pruning envNoTrustW addrW secretW [10, 20, 30] 0 5 noTrustErrW
     { transaction := "tx_failed", operations := some codesW } codesW
     (by decide) (by decide) rfl (by decide) rfl rfl rfl (by decide) (by decide)⟩

theorem sendTransactionsGas_attempts_le {Op : Type} (env : Nat → AttemptEnv) (a s : String) :
    ∀ (gas : Nat) (ops : List Op) (rc mr : Nat),
    (sendTransactionsGas env a s gas ops rc mr).attempts ≤ gas := by
  intro gas
  induction gas with
  | zero =>
      intro ops rc mr
      rw [sendTransactionsGas]
      split
      · exact Nat.le_refl _
      · exact Nat.le_refl _
  | succ gas' ih =>
      intro ops rc mr
      rw [sendTransactionsGas]
      split
      · exact Nat.zero_le _
      · cases houtcome : (env rc).outcome with
        | ok hash =>
            simp only [houtcome]
            exact Nat.succ_le_succ (Nat.zero_le _)
        | err e =>
            simp only [houtcome]
            repeat' split
            all_goals
              first
              | exact Nat.succ_le_succ (ih _ _ _)
              | exact Nat.succ_le_succ (Nat.zero_le _)
              | exact Nat.le_refl _
              | exact Nat.zero_le _

theorem sendTransactionsGas_all504 {Op : Type} (env : Nat → AttemptEnv) (a s : String)
    (e : HorizonError) (he : e.status = some 504) :
    ∀ (gas : Nat) (ops : List Op) (rc mr : Nat), ops ≠ [] →
    (∀ i, i < gas → (env (rc + i)).outcome = SubmitOutcome.err e) →
    (sendTransactionsGas env a s gas ops rc mr).hashes = [] ∧
    (sendTransactionsGas env a s gas ops rc mr).attempts = gas ∧
    (sendTransactionsGas env a s gas ops rc mr).finalOps = ops ∧
    (sendTransactionsGas env a s gas ops rc mr).replies =
      List.replicate gas "504 Gateway Timeout. Retrying..." ++
        ["❌ Max retries reached. Aborting transaction."] := by
  intro gas
  induction gas with
  | zero =>
      intro ops rc mr hops _
      have hlen : ¬(ops.length = 0) := by simpa [List.length_eq_zero] using hops
      rw [sendTransactionsGas]
      simp [hlen]
  | succ gas' ih =>
      intro ops rc mr hops hall
      have hlen : ¬(ops.length = 0) := by simpa [List.length_eq_zero] using hops
      have h0 : (env rc).outcome = SubmitOutcome.err e := by
        have hx := hall 0 (Nat.succ_pos _)
        simpa using hx
      have hrest : ∀ i, i < gas' → (env (rc + 1 + i)).outcome = SubmitOutcome.err e := by
        intro i hi
        have hx := hall (i + 1) (by omega)
        have harith : rc + (i + 1) = rc + 1 + i := by omega
        rwa [harith] at hx
      obtain ⟨ih1, ih2, ih3, ih4⟩ := ih ops (rc + 1) mr hops hrest
      rw [sendTransactionsGas]
      simp [hlen, h0, he, ih1, ih2, ih3, ih4, List.replicate_succ]

/-- Claim C2: the retry loop shares one attempt budget: for every batch and
start state at most `maxRetries - retryCount` submission attempts happen (so
5 for the callers' `retryCount = 0, maxRetries = 5`, and the function is
total — it always terminates); and 5 consecutive network-transient 504
failures produce exactly 5 attempts, a terminal retry-budget-exhausted
reply, and no hash — no 6th attempt is made. -/
theorem claim2_retry_budget {Op : Type} (env : Nat → AttemptEnv)
    (target_address secret : String) (operations : List Op) (e : HorizonError) :
    (∀ (ops' : List Op) (retryCount maxRetries : Nat),
      (sendTransactions env target_address secret ops' retryCount maxRetries).attempts ≤
        maxRetries - retryCount) ∧
    (operations ≠ [] → e.status = some 504 →
      (∀ i, i < 5 → (env i).outcome = SubmitOutcome.err e) →
      (sendTransactions env target_address secret operations 0 5).attempts = 5 ∧
      (sendTransactions env target_address secret operations 0 5).hashes = [] ∧
      (sendTransactions env target_address secret operations 0 5).replies =
        List.replicate 5 "504 Gateway Timeout. Retrying..." ++
          ["❌ Max retries reached. Aborting transaction."]) := by
  constructor
  · intro ops' rc mr
    rw [sendTransactions]
    exact sendTransactionsGas_attempts_le env _ _ _ ops' rc mr
  · intro hops h504 hall
    have hall' : ∀ i, i < 5 → (env (0 + i)).outcome = SubmitOutcome.err e := by
      intro i hi
      simpa using hall i hi
    obtain ⟨h1, h2, h3, h4⟩ :=
      sendTransactionsGas_all504 env target_address secret e h504 5 operations 0 5 hops hall'
    rw [sendTransactions]
    exact ⟨h2, h1, h4⟩

/-- The concrete 504 transport failure used by the C2 witness. -/
def err504W : HorizonError := { status := some 504, resultCodes := none, message := "504" }

def env504W : Nat → AttemptEnv :=
  fun n => { seq := n, buildTime := 0, outcome := SubmitOutcome.err err504W }

/-- Witness for C2: with every attempt answered by a 504, the singleton batch
`[0]` makes exactly 5 attempts and stops. -/
theorem claim2_witness :
    (([0] : List Nat) ≠ [] ∧ err504W.status = some 504 ∧
      (∀ i, i < 5 → (env504W i).outcome = SubmitOutcome.err err504W)) ∧
    ((∀ (ops' : List Nat) (retryCount maxRetries : Nat),
      (sendTransactions env504W addrW secretW ops' retryCount maxRetries).attempts ≤
        maxRetries - retryCount) ∧
    (([0] : List Nat) ≠ [] → err504W.status = some 504 →
      (∀ i, i < 5 → (env504W i).outcome = SubmitOutcome.err err504W) →
      (sendTransactions env504W addrW secretW ([0] : List Nat) 0 5).attempts = 5 ∧
      (sendTransactions env504W addrW secretW ([0] : List Nat) 0 5).hashes = [] ∧
      (sendTransactions env504W addrW secretW ([0] : List Nat) 0 5).replies =
        List.replicate 5 "504 Gateway Timeout. Retrying..." ++
          ["❌ Max retries reached. Aborting transaction."])) :=
  ⟨by decide, claim2_retry_budget env504W addrW secretW [0] err504W⟩

/-- Claim C10: on the missing-authorization pruning path the caller-supplied
operations array is mutated in place (the splice loop), so after
`sendTransactions` returns, the array the caller passed in holds only the
surviving operations, not the original batch — here observed through the
`finalOps` component, with the retry succeeding on the next attempt. -/
theorem claim10_inplace_mutation {Op : Type} (env : Nat → AttemptEnv)
    (target_address secret : String) (operations : List Op) (retryCount maxRetries : Nat)
    (e : HorizonError) (rc : ResultCodes) (codes : List String) (hash : String)
    (hops : operations ≠ [])
    (hrc : retryCount < maxRetries)
    (hrc2 : retryCount + 1 < maxRetries)
    (henv : (env retryCount).outcome = SubmitOutcome.err e)
    (h504 : e.status ≠ some 504)
    (hrcodes : e.resultCodes = some rc)
    (ht : rc.transaction = "tx_failed")
    (hcodes : rc.operations = some codes)
    (hne : codes ≠ [])
    (hmem : "op_no_trust" ∈ codes)
    (hpr : pruneOps operations codes ≠ [])
    (hchanged : pruneOps operations codes ≠ operations)
    (hnext : (env (retryCount + 1)).outcome = SubmitOutcome.ok hash) :
    (sendTransactions env target_address secret operations retryCount maxRetries).finalOps =
      pruneOps operations codes ∧
    (sendTransactions env target_address secret operations retryCount maxRetries).finalOps ≠
      operations ∧
    (sendTransactions env target_address secret operations retryCount maxRetries).hashes =
      [hash] := by
  rw [sendTransactions_prune_step env target_address secret operations retryCount
    maxRetries e rc codes hops hrc henv h504 hrcodes ht hcodes hne hmem hpr]
  rw [sendTransactions_ok_step env target_address secret (pruneOps operations codes)
    (retryCount + 1) maxRetries hash hpr hrc2 hnext]
  exact ⟨rfl, hchanged, rfl⟩

/-- The hash returned on the successful retry in the C10 witness. -/
def hashW : String := "abc123"

/-- Attempt 0 fails with the `op_no_trust` rejection; attempt 1 succeeds. -/
def envNoTrustThenOkW : Nat → AttemptEnv :=
  fun n =>
    if n = 0 then { seq := n, buildTime := 0, outcome := SubmitOutcome.err noTrustErrW }
    else { seq := n, buildTime := 0, outcome := SubmitOutcome.ok hashW }

/-- Witness for C10: after the rejection of index 1 and a successful retry,
the caller's array holds `[10, 30]`, not the original `[10, 20, 30]`. -/
theorem claim10_witness :
    (([10, 20, 30] : List Nat) ≠ [] ∧ (0 : Nat) < 5 ∧ (0 : Nat) + 1 < 5 ∧
      (envNoTrustThenOkW 0).outcome = SubmitOutcome.err noTrustErrW ∧
      noTrustErrW.status ≠ some 504 ∧
      noTrustErrW.resultCodes = some { transaction := "tx_failed", operations := some codesW } ∧
      codesW ≠ [] ∧ "op_no_trust" ∈ codesW ∧
      pruneOps ([10, 20, 30] : List Nat) codesW ≠ [] ∧
      pruneOps ([10, 20, 30] : List Nat) codesW ≠ [10, 20, 30] ∧
      (envNoTrustThenOkW 1).outcome = SubmitOutcome.ok hashW) ∧
    ((sendTransactions envNoTrustThenOkW addrW secretW ([10, 20, 30] : List Nat) 0 5).finalOps =
      pruneOps ([10, 20, 30] : List Nat) codesW ∧
    (sendTransactions envNoTrustThenOkW addrW secretW ([10, 20, 30] : List Nat) 0 5).finalOps ≠
      [10, 20, 30] ∧
    (sendTransactions envNoTrustThenOkW addrW secretW ([10, 20, 30] : List Nat) 0 5).hashes =
      [hashW]) :=
  ⟨by decide,
   claim10_inplace_mutation envNoTrustThenOkW addrW secretW [10, 20, 30] 0 5 noTrustErrW
     { transaction := "tx_failed", operations := some codesW } codesW hashW
     (by decide) (by decide) (by decide) rfl (by decide) rfl rfl rfl (by decide) (by decide)
     (by decide) (by decide) rfl⟩

theorem sendTransactionsGas_builds_length {Op : Type} (env : Nat → AttemptEnv) (a s : String) :
    ∀ (gas : Nat) (ops : List Op) (rc mr : Nat),
    (sendTransactionsGas env a s gas ops rc mr).builds.length =
      (sendTransactionsGas env a s gas ops rc mr).attempts := by
  intro gas
  induction gas with
  | zero =>
      intro ops rc mr
      rw [sendTransactionsGas]
      split
      · rfl
      · rfl
  | succ gas' ih =>
      intro ops rc mr
      rw [sendTransactionsGas]
      split
      · rfl
      · cases houtcome : (env rc).outcome with
        | ok hash =>
            simp only [houtcome]
            rfl
        | err e =>
            simp only [houtcome]
            repeat' split
            all_goals
              first
              | (simp only [List.length_cons]
                 exact congrArg (fun n => n + 1) (ih _ (rc + 1) mr))
              | rfl

theorem sendTransactionsGas_builds_get {Op : Type} (env : Nat → AttemptEnv) (a s : String) :
    ∀ (gas : Nat) (ops : List Op) (rc mr : Nat) (k : Nat) (b : BuiltTx Op),
    (sendTransactionsGas env a s gas ops rc mr).builds[k]? = some b →
    b.sourceSeq = (env (rc + k)).seq ∧
    b.timeboundMax = (env (rc + k)).buildTime + 180 ∧
    b.ops ≠ [] := by
  intro gas
  induction gas with
  | zero =>
      intro ops rc mr k b hb
      rw [sendTransactionsGas] at hb
      split at hb
      · simp at hb
      · simp at hb
  | succ gas' ih =>
      intro ops rc mr k b hb
      rw [sendTransactionsGas] at hb
      split at hb
      · simp at hb
      · rename_i hlen
        have hops : ops ≠ [] := by
          intro hnil
          rw [hnil] at hlen
          exact hlen rfl
        cases houtcome : (env rc).outcome with
        | ok hash =>
            simp only [houtcome] at hb
            cases k with
            | zero =>
                simp only [List.getElem?_cons_zero, Option.some.injEq] at hb
                subst hb
                refine ⟨by simp, by simp, hops⟩
            | succ k' => simp at hb
        | err e =>
            simp only [houtcome] at hb
            repeat' split at hb
            all_goals
              first
              | (cases k with
                 | zero =>
                     simp only [List.getElem?_cons_zero, Option.some.injEq] at hb
                     subst hb
                     refine ⟨by simp, by simp, hops⟩
                 | succ k' =>
                     simp only [List.getElem?_cons_succ] at hb
                     have hx := ih _ (rc + 1) mr k' b hb
                     have harith : rc + 1 + k' = rc + (k' + 1) := by omega
                     rw [harith] at hx
                     exact hx)
              | (cases k with
                 | zero =>
                     simp only [List.getElem?_cons_zero, Option.some.injEq] at hb
                     subst hb
                     refine ⟨by simp, by simp, hops⟩
                 | succ k' => simp at hb)

/-- Claim C9: one transaction is built per submission attempt (including each
retry), and the k-th built transaction takes its source sequence number from
the account snapshot freshly fetched on attempt `retryCount + k` and a
validity window freshly recomputed as that attempt's build time plus 180
seconds; consequently, when the ledger never repeats a sequence number
across fetches, no two attempts reuse a sequence number. -/
theorem claim9_fresh_snapshot {Op : Type} (env : Nat → AttemptEnv)
    (target_address secret : String) (operations : List Op) (retryCount maxRetries : Nat) :
    ((sendTransactions env target_address secret operations retryCount maxRetries).builds.length =
      (sendTransactions env target_address secret operations retryCount maxRetries).attempts) ∧
    (∀ (k : Nat) (b : BuiltTx Op),
      (sendTransactions env target_address secret operations retryCount maxRetries).builds[k]? =
        some b →
      b.sourceSeq = (env (retryCount + k)).seq ∧
      b.timeboundMax = (env (retryCount + k)).buildTime + 180) ∧
    ((∀ m n, m ≠ n → (env m).seq ≠ (env n).seq) →
      ∀ (j k : Nat) (bj bk : BuiltTx Op), j ≠ k →
      (sendTransactions env target_address secret operations retryCount maxRetries).builds[j]? =
        some bj →
      (sendTransactions env target_address secret operations retryCount maxRetries).builds[k]? =
        some bk →
      bj.sourceSeq ≠ bk.sourceSeq) := by
  rw [sendTransactions]
  refine ⟨sendTransactionsGas_builds_length env target_address secret _ operations
    retryCount maxRetries, ?_, ?_⟩
  · intro k b hb
    have hx := sendTransactionsGas_builds_get env target_address secret _ operations
      retryCount maxRetries k b hb
    exact ⟨hx.1, hx.2.1⟩
  · intro hinj j k bj bk hjk hbj hbk
    have hj := sendTransactionsGas_builds_get env target_address secret _ operations
      retryCount maxRetries j bj hbj
    have hk := sendTransactionsGas_builds_get env target_address secret _ operations
      retryCount maxRetries k bk hbk
    rw [hj.1, hk.1]
    exact hinj (retryCount + j) (retryCount + k) (by omega)

/-- An environment whose snapshots advance the sequence number each attempt
and whose first attempt succeeds, used by the C9 witness. -/
def envOkW : Nat → AttemptEnv :=
  fun n => { seq := n, buildTime := 0, outcome := SubmitOutcome.ok hashW }

/-- Witness for C9 at a concrete batch and environment. -/
theorem claim9_witness :
    ((sendTransactions envOkW addrW secretW ([0] : List Nat) 0 5).builds.length =
      (sendTransactions envOkW addrW secretW ([0] : List Nat) 0 5).attempts) ∧
    (∀ (k : Nat) (b : BuiltTx Nat),
      (sendTransactions envOkW addrW secretW ([0] : List Nat) 0 5).builds[k]? = some b →
      b.sourceSeq = (envOkW (0 + k)).seq ∧
      b.timeboundMax = (envOkW (0 + k)).buildTime + 180) ∧
    ((∀ m n, m ≠ n → (envOkW m).seq ≠ (envOkW n).seq) →
      ∀ (j k : Nat) (bj bk : BuiltTx Nat), j ≠ k →
      (sendTransactions envOkW addrW secretW ([0] : List Nat) 0 5).builds[j]? = some bj →
      (sendTransactions envOkW addrW secretW ([0] : List Nat) 0 5).builds[k]? = some bk →
      bj.sourceSeq ≠ bk.sourceSeq) :=
  claim9_fresh_snapshot envOkW addrW secretW [0] 0 5

/-! ## The message handler (`message:text`, bot.ts lines 191-252) -/

/-- A Stellar asset as constructed when building operations:
`assetInfo.code === "XLM" ? Asset.native() : new Asset(code, issuer ?? undefined)`. -/
inductive StellarAsset where
  | native
  | issued (code : String) (issuer : Option String)
deriving DecidableEq

/-- `Operation.createClaimableBalance({ asset, amount, claimants: [claimant] })`. -/
structure ClaimOp where
  asset : StellarAsset
  amount : String
  claimant : String
deriving DecidableEq

def opOfAsset (claimant : String) (assetInfo : AssetToSend) : ClaimOp :=
  { asset := if assetInfo.code = "XLM" then StellarAsset.native
             else StellarAsset.issued assetInfo.code assetInfo.issuer,
    amount := assetInfo.amount,
    claimant := claimant }

/-- The per-chunk loop of the handler: call `sendTransactions` on every chunk
in order (chunk `i` submits against the environment `envs i`), concatenating
the produced hashes and the outward replies. -/
def runChunks (envs : Nat → Nat → AttemptEnv) (target_address secret : String) :
    List (List ClaimOp) → Nat → List String × List String
  | [], _ => ([], [])
  | chunk :: rest, i =>
      let r := sendTransactions (envs i) target_address secret chunk 0 5
      let r2 := runChunks envs target_address secret rest (i + 1)
      (r.hashes ++ r2.1, r.replies ++ r2.2)

/-- `` `✅ Claimable balances sent!\n\nTransactions:\n${txHashes.map(h => ...).join("\n")}` ``. -/
def successReply (txHashes : List String) : String :=
  "✅ Claimable balances sent!\n\nTransactions:\n" ++
    String.intercalate "\n"
      (txHashes.map (fun h => "https://stellar.expert/explorer/public/tx/" ++ h))

/-- Observable result of one `message:text` event: the cooldown map
afterwards, the accumulated transaction hashes, and the replies sent. -/
structure HandleResult where
  store : List (Nat × CooldownEntry)
  hashes : List String
  replies : List String
deriving DecidableEq

/-- The `message:text` handler: validate the address, consult the cooldown,
bail out when no assets are configured, otherwise split the asset list into
chunks, build one create-claimable-balance operation per asset, submit chunk
by chunk, and — only when at least one hash was accumulated — record the
success in the cooldown map (for a truthy user id) and send the success
reply. -/
def handleMessageText (envs : Nat → Nat → AttemptEnv) (secret : String)
    (assetsToSend : List AssetToSend) (store0 : List (Nat × CooldownEntry))
    (userId : Nat) (address : String) (now nowSuccess : Int) : HandleResult :=
  if ¬ isValidStellarAddress address then
    { store := store0, hashes := [],
      replies := ["❌ That doesn\x27t look like a valid Stellar address. Please send a valid address starting with \x27G\x27."] }
  else if cooldownRejects store0 userId address now then
    { store := store0, hashes := [],
      replies := ["⏳ Please wait 1 minute before requesting again with the same address."] }
  else if assetsToSend.length = 0 then
    { store := store0, hashes := [],
      replies := ["⚠️ No assets configured to send. Please tell the admin to check \x27database.xlsx\x27."] }
  else
    let opsChunks := (assetChunks assetsToSend).map (fun chunk => chunk.map (opOfAsset address))
    let sent := runChunks envs address secret opsChunks 0
    if sent.1.length > 0 then
      { store := if userId ≠ 0 then recordSuccess store0 userId address nowSuccess else store0,
        hashes := sent.1,
        replies := ["⏳ Creating your claimable balances. Please wait..."] ++ sent.2 ++
          [successReply sent.1] }
    else
      { store := store0, hashes := sent.1,
        replies := ["⏳ Creating your claimable balances. Please wait..."] ++ sent.2 }

/-- Claim C8: the cooldown state is updated — via `recordSuccess` — iff the
distribution accumulated at least one transaction hash (for a truthy
requester id); a request rejected outright (invalid address, cooldown, no
assets) or whose every batch failed leaves the cooldown store unchanged. -/
theorem claim8_record_success_iff (envs : Nat → Nat → AttemptEnv) (secret : String)
    (assetsToSend : List AssetToSend) (store0 : List (Nat × CooldownEntry))
    (userId : Nat) (address : String) (now nowSuccess : Int) :
    (userId ≠ 0 →
      ((handleMessageText envs secret assetsToSend store0 userId address now nowSuccess).store ≠
          store0 ↔
        (handleMessageText envs secret assetsToSend store0 userId address now nowSuccess).hashes ≠
          [])) ∧
    ((handleMessageText envs secret assetsToSend store0 userId address now nowSuccess).store ≠
        store0 →
      (handleMessageText envs secret assetsToSend store0 userId address now nowSuccess).store =
        recordSuccess store0 userId address nowSuccess) ∧
    (userId = 0 →
      (handleMessageText envs secret assetsToSend store0 userId address now nowSuccess).store =
        store0) := by
  have hcons : ∀ (e : Nat × CooldownEntry) (l : List (Nat × CooldownEntry)), e :: l ≠ l := by
    intro e l he
    have hlen := congrArg List.length he
    simp at hlen
  simp only [handleMessageText]
  generalize runChunks envs address secret
    ((assetChunks assetsToSend).map (fun chunk => chunk.map (opOfAsset address))) 0 = sent
  have hrec : recordSuccess store0 userId address nowSuccess ≠ store0 := hcons _ store0
  split_ifs with h1 h2 h3 h4 h5 <;>
    simp_all [List.length_eq_zero, Nat.pos_iff_ne_zero]

/-- A syntactically valid requester address used by the C8 witness. -/
def validAddrW : String := "GAAAAAAAAAAAAAAAAAAAAAAAAAAAAAAAAAAAAAAAAAAAAAAAAAAAAAAA"

def envsOkW : Nat → Nat → AttemptEnv :=
  fun _ n => { seq := n, buildTime := 0, outcome := SubmitOutcome.ok hashW }

/-- Witness for C8 at a concrete request: requester 7, one configured asset,
every submission succeeding. -/
theorem claim8_witness :
    ((7 : Nat) ≠ 0 →
      ((handleMessageText envsOkW secretW [catalogAssetW] [] 7 validAddrW 0 1).store ≠ [] ↔
        (handleMessageText envsOkW secretW [catalogAssetW] [] 7 validAddrW 0 1).hashes ≠ [])) ∧
    ((handleMessageText envsOkW secretW [catalogAssetW] [] 7 validAddrW 0 1).store ≠ [] →
      (handleMessageText envsOkW secretW [catalogAssetW] [] 7 validAddrW 0 1).store =
        recordSuccess [] 7 validAddrW 1) ∧
    ((7 : Nat) = 0 →
      (handleMessageText envsOkW secretW [catalogAssetW] [] 7 validAddrW 0 1).store = []) :=
  claim8_record_success_iff envsOkW secretW [catalogAssetW] [] 7 validAddrW 0 1

/-! ## No occurrence of the secret survives the split/join scrub -/

theorem prefix_split_at_char (br : Char) (y : List Char) :
    ∀ (sep x : List Char), sep <+: (x ++ br :: y) → br ∉ sep → sep <+: x
  | [], _, _, _ => List.nil_prefix
  | s :: sep', x, hpre, hbr => by
      cases x with
      | nil =>
          rw [List.nil_append] at hpre
          rcases List.cons_prefix_cons.mp hpre with ⟨hs, _⟩
          subst hs
          exact absurd (List.mem_cons_self _ _) hbr
      | cons a x' =>
          rw [List.cons_append] at hpre
          rcases List.cons_prefix_cons.mp hpre with ⟨hs, htail⟩
          subst hs
          have hbr' : br ∉ sep' := fun hm => hbr (List.mem_cons_of_mem _ hm)
          have hx := prefix_split_at_char br y sep' x' htail hbr'
          exact List.cons_prefix_cons.mpr ⟨rfl, hx⟩

theorem infix_split_at_char (br : Char) :
    ∀ (x : List Char) {sep y : List Char}, sep <:+: (x ++ br :: y) → br ∉ sep →
      sep <:+: x ∨ sep <:+: y := by
  intro x
  induction x with
  | nil =>
      intro sep y hinf hbr
      rw [List.nil_append] at hinf
      rcases List.infix_cons_iff.mp hinf with hpre | hinf'
      · cases hsep : sep with
        | nil => exact Or.inl List.nil_infix
        | cons s sep' =>
            rw [hsep] at hpre
            rcases List.cons_prefix_cons.mp hpre with ⟨hs, _⟩
            rw [hsep, hs] at hbr
            exact absurd (List.mem_cons_self _ _) hbr
      · exact Or.inr hinf'
  | cons a x' ih =>
      intro sep y hinf hbr
      rw [List.cons_append] at hinf
      rcases List.infix_cons_iff.mp hinf with hpre | hinf'
      · have hpre' : sep <+: (a :: x') ++ br :: y := by rwa [List.cons_append]
        have hx := prefix_split_at_char br y sep (a :: x') hpre' hbr
        rcases hx with ⟨t, ht⟩
        exact Or.inl ⟨[], t, by simpa using ht⟩
      · rcases ih hinf' hbr with h | h
        · exact Or.inl (List.infix_cons h)
        · exact Or.inr h

theorem jsSplit_head_pre (sep : List Char) :
    ∀ (s p : List Char) (ps : List (List Char)), jsSplit sep s = p :: ps → p <+: s
  | [], p, ps, h => by
      rw [jsSplit] at h
      injection h with h1 _
      subst h1
      exact List.nil_prefix
  | c :: rest, p, ps, h => by
      rw [jsSplit] at h
      split at h
      · injection h with h1 _
        subst h1
        exact List.nil_prefix
      · cases hrec : jsSplit sep rest with
        | nil =>
            rw [hrec] at h
            injection h with h1 _
            subst h1
            exact List.cons_prefix_cons.mpr ⟨rfl, List.nil_prefix⟩
        | cons q qs =>
            rw [hrec] at h
            injection h with h1 _
            have hq : q <+: rest := jsSplit_head_pre sep rest q qs hrec
            subst h1
            exact List.cons_prefix_cons.mpr ⟨rfl, hq⟩
termination_by s => s.length
decreasing_by
  simp only [List.length_cons]
  omega

theorem jsSplit_pieces_no_occurrence (sep : List Char) (hsep : sep ≠ []) :
    ∀ (s p : List Char), p ∈ jsSplit sep s → ¬ sep <:+: p
  | [], p, hp => by
      rw [jsSplit] at hp
      have hp' : p = [] := by simpa using hp
      subst hp'
      intro hinf
      rw [List.infix_nil] at hinf
      exact hsep hinf
  | c :: rest, p, hp => by
      rw [jsSplit] at hp
      split at hp
      next hcond =>
        rcases List.mem_cons.mp hp with rfl | hp'
        · intro hinf
          rw [List.infix_nil] at hinf
          exact hsep hinf
        · exact jsSplit_pieces_no_occurrence sep hsep ((c :: rest).drop sep.length) p hp'
      next hcond =>
        have hnp : ¬ sep <+: (c :: rest) := by
          intro hpre
          exact hcond ⟨hsep, List.isPrefixOf_iff_prefix.mpr hpre⟩
        cases hrec : jsSplit sep rest with
        | nil =>
            rw [hrec] at hp
            have hp' : p = [c] := by simpa using hp
            subst hp'
            intro hinf
            rcases List.infix_cons_iff.mp hinf with hpre | hinf'
            · have hsingle : ([c] : List Char) <+: c :: rest :=
                List.cons_prefix_cons.mpr ⟨rfl, List.nil_prefix⟩
              exact hnp (hpre.trans hsingle)
            · rw [List.infix_nil] at hinf'
              exact hsep hinf'
        | cons q qs =>
            rw [hrec] at hp
            rcases List.mem_cons.mp hp with rfl | hp'
            · intro hinf
              rcases List.infix_cons_iff.mp hinf with hpre | hinf'
              · have hq : q <+: rest := jsSplit_head_pre sep rest q qs hrec
                have hpre' : sep <+: c :: rest :=
                  hpre.trans (List.cons_prefix_cons.mpr ⟨rfl, hq⟩)
                exact hnp hpre'
              · exact jsSplit_pieces_no_occurrence sep hsep rest q
                  (by rw [hrec]; exact List.mem_cons_self _ _) hinf'
            · exact jsSplit_pieces_no_occurrence sep hsep rest p
                (by rw [hrec]; exact List.mem_cons_of_mem _ hp')
termination_by s => s.length
decreasing_by
  all_goals
    first
    | (rw [List.length_drop]
       have h1 : 1 ≤ sep.length := List.length_pos.mpr hsep
       simp only [List.length_cons]
       omega)
    | (simp only [List.length_cons]
       omega)

theorem joinWith_no_occurrence (sep : List Char) (hsep : sep ≠ [])
    (hbr1 : '[' ∉ sep) (hbr2 : ']' ∉ sep)
    (hsw : ¬ sep <:+: ("SECRET".data)) :
    ∀ (pieces : List (List Char)), (∀ p ∈ pieces, ¬ sep <:+: p) →
      ¬ sep <:+: joinWith ("[SECRET]".data) pieces
  | [], _ => by
      rw [joinWith]
      intro hinf
      rw [List.infix_nil] at hinf
      exact hsep hinf
  | [p], hp => by
      rw [joinWith]
      exact hp p (List.mem_cons_self _ _)
  | p :: q :: ps, hp => by
      rw [joinWith]
      intro hinf
      have hshape : p ++ "[SECRET]".data ++ joinWith ("[SECRET]".data) (q :: ps)
          = p ++ '[' :: ("SECRET".data ++ ']' :: joinWith ("[SECRET]".data) (q :: ps)) := by
        have hm : ("[SECRET]".data : List Char) = '[' :: ("SECRET".data ++ [']']) := by decide
        rw [hm]
        simp [List.append_assoc]
      rw [hshape] at hinf
      rcases infix_split_at_char '[' p hinf hbr1 with h | h
      · exact hp p (List.mem_cons_self _ _) h
      · rcases infix_split_at_char ']' ("SECRET".data) h hbr2 with h' | h'
        · exact hsw h'
        · exact joinWith_no_occurrence sep hsep hbr1 hbr2 hsw (q :: ps)
            (fun x hx => hp x (List.mem_cons_of_mem _ hx)) h'

/-- The scrub is complete: provided the signing secret is non-empty, contains
no bracket character, and is not a fragment of the word `SECRET`, the output
of `safeText` contains no occurrence of the secret at all. -/
theorem safeText_no_occurrence (secret raw : String)
    (hne : secret ≠ "") (hbr1 : '[' ∉ secret.data) (hbr2 : ']' ∉ secret.data)
    (hsw : ¬ secret.data <:+: ("SECRET".data)) :
    ¬ secret.data <:+: (safeText secret raw).data := by
  rw [safeText, if_neg hne]
  have hne' : secret.data ≠ [] := by
    intro hd
    exact hne (String.ext (hd.trans rfl))
  exact joinWith_no_occurrence secret.data hne' hbr1 hbr2 hsw
    (jsSplit secret.data raw.data)
    (fun p hp => jsSplit_pieces_no_occurrence secret.data hne' raw.data p hp)

/-- The outward replies of `sendTransactions` that carry no raw error text. -/
def submitterFixedReplies : List String :=
  ["❌ Max retries reached. Aborting transaction.",
   "504 Gateway Timeout. Retrying...",
   "Bad sequence number. Retrying...",
   "Transaction timeout. Retrying...",
   "Gas fee is too high now. Retrying after 5 seconds...",
   "Your wallet has not set a trustline. Retrying remaining operations...",
   "Transaction failed: Your wallet did not set trustline with asset.",
   "Transaction failed: Asset amount is insufficient in distribution account."]

theorem sendTransactionsGas_replies_shape {Op : Type} (env : Nat → AttemptEnv) (a s : String) :
    ∀ (gas : Nat) (ops : List Op) (rc mr : Nat) (r : String),
      r ∈ (sendTransactionsGas env a s gas ops rc mr).replies →
      r ∈ submitterFixedReplies ∨ ∃ m, r = mkFailReason a (safeText s m) := by
  intro gas
  induction gas with
  | zero =>
      intro ops rc mr r hr
      rw [sendTransactionsGas] at hr
      split at hr
      · simp at hr
      · have hr' : r = "❌ Max retries reached. Aborting transaction." := by simpa using hr
        subst hr'
        left
        simp [submitterFixedReplies]
  | succ gas' ih =>
      intro ops rc mr r hr
      rw [sendTransactionsGas] at hr
      split at hr
      · simp at hr
      · cases houtcome : (env rc).outcome with
        | ok hash =>
            simp only [houtcome] at hr
            simp at hr
        | err e =>
            simp only [houtcome] at hr
            repeat' split at hr
            all_goals (
              rcases List.mem_cons.mp hr with rfl | hr'
              · first
                | (left
                   simp [submitterFixedReplies]
                   done)
                | (right
                   exact ⟨e.message, rfl⟩)
              · first
                | exact absurd hr' (List.not_mem_nil r)
                | exact ih _ (rc + 1) mr r hr')

/-! ## The legacy second variant surfaces the raw error (bot.ts lines 345-350) -/

/-- `error?.response?.data?.extras?.result_codes?.operations || error.message`:
when structured per-operation codes are present they are stringified
(`join(",")` in a template literal), otherwise the raw `error.message` is
interpolated — with no scrubbing. -/
def variant2Reason (error : HorizonError) : String :=
  match error.resultCodes with
  | some rcodes =>
      match rcodes.operations with
      | some l => String.intercalate (",") l
      | none => error.message
  | none => error.message

/-- `` `❌ Failed to send claimable balances. Reason: ${...}` `` of the second
variant's `message:text` handler. -/
def variant2FailureReply (error : HorizonError) : String :=
  "❌ Failed to send claimable balances. Reason: " ++ variant2Reason error

/-- A concrete signing secret and a raw error whose message embeds it. -/
def leakSecretW : String := "SBLEAKLEAK"

def leakErrW : HorizonError :=
  { status := none, resultCodes := none,
    message := "Request failed for seed SBLEAKLEAK after signing" }

/-- Counterexample to C7 as stated: in the second variant the surfaced reply
is built from the raw `error.message` without scrubbing, so for a raw error
containing the exact signing-secret string the secret appears verbatim in
the outward reply. -/
theorem claim7_counterexample :
    leakSecretW ≠ "" ∧
    leakSecretW.data <:+: leakErrW.message.data ∧
    leakSecretW.data <:+: (variant2FailureReply leakErrW).data := by
  refine ⟨by decide, by decide, by decide⟩

/-- Claim C7 (amended): in the primary variant every outward reply of the
submitter is either one of the fixed strings (carrying no raw error content)
or the failure template whose raw-error part passes through `safeText`; and
`safeText` replaces every occurrence of the secret — for a non-empty secret
with no bracket characters that is not a fragment of the word `SECRET`, the
scrubbed text contains no occurrence of the secret.  (The legacy second
variant, exhibited by the counterexample, surfaces the raw message
unscrubbed.) -/
theorem claim7_scrub_amended {Op : Type} (env : Nat → AttemptEnv)
    (target_address secret raw : String) (operations : List Op) (retryCount maxRetries : Nat)
    (hne : secret ≠ "") (hbr1 : '[' ∉ secret.data) (hbr2 : ']' ∉ secret.data)
    (hsw : ¬ secret.data <:+: ("SECRET".data)) :
    (∀ r, r ∈ (sendTransactions env target_address secret operations
        retryCount maxRetries).replies →
      r ∈ submitterFixedReplies ∨ ∃ m, r = mkFailReason target_address (safeText secret m)) ∧
    ¬ secret.data <:+: (safeText secret raw).data := by
  constructor
  · intro r hr
    rw [sendTransactions] at hr
    exact sendTransactionsGas_replies_shape env target_address secret _ operations
      retryCount maxRetries r hr
  · exact safeText_no_occurrence secret raw hne hbr1 hbr2 hsw

/-- Witness for the amended C7 at a concrete secret, raw error, and
environment. -/
theorem claim7_witness :
    (secretW ≠ "" ∧ '[' ∉ secretW.data ∧ ']' ∉ secretW.data ∧
      ¬ secretW.data <:+: ("SECRET".data)) ∧
    ((∀ r, r ∈ (sendTransactions envUnderfundedW addrW secretW ([0] : List Nat) 0 5).replies →
      r ∈ submitterFixedReplies ∨ ∃ m, r = mkFailReason addrW (safeText secretW m)) ∧
    ¬ secretW.data <:+: (safeText secretW ("boom SQQQ boom")).data) :=
  ⟨⟨by decide, by decide, by decide, by decide⟩,
   claim7_scrub_amended envUnderfundedW addrW secretW ("boom SQQQ boom") [0] 0 5
     (by decide) (by decide) (by decide) (by decide)⟩
